import Mathlib

/-!
Verification of the forecast-driven periodic-review inventory simulator
(`forecast_periodic_review_inventory` in `src/utils.py`).

Modelling conventions of the shallow embedding:
* Python floats are modelled by `ℚ`; a missing cell (`NaN`) is `none` in
  `Option ℚ`.  The only comparison the simulator performs against a possibly
  missing value is `demand <= on_hand_inventory`, which is `False` in Python
  when `demand` is `NaN`; the embedding branches on the `Option` accordingly.
* `np.sqrt` is an external numeric routine whose exact value never influences
  the control flow verified here; it is passed as an explicit function
  parameter `sq : ℚ → ℚ` and every theorem is proved for all `sq`.
* Python runtime errors that the simulator can actually raise are made
  explicit: `list.pop(0)` on an empty list (`IndexError`, reachable when
  `lead_time ≤ 0`) and `%` by zero (`ZeroDivisionError`, reachable when
  `review_period = 0` or a zero rolling window is used).  The simulator
  therefore returns `Except RErr (List OutRow)`.
* Pandas specifics are reproduced: positional slices `iloc[a:b]` clip to the
  series length and interpret a negative end relative to the end
  (`ilocSlice`); `Series.sum`/`Series.mean` skip missing values; `np.std` is
  the population standard deviation; `last_valid_index` returns the largest
  index holding a present value (or `-1`, as the source substitutes, when
  there is none); the per-loop assignment `df.loc[t:, "safety_stock_target"]`
  leaves row `t` of the final frame holding the target active at period `t`,
  which is what `OutRow.safety_stock_target` records.
-/

/-- Python runtime errors reachable inside the simulation loop. -/
inductive RErr where
  | indexError : RErr
  | zeroDivisionError : RErr
deriving DecidableEq, Repr

/-- One record of the input series: `demand` (may be missing for
future/projected periods) and `forecast` (the source tolerates missing
forecasts as well, they behave as `NaN`). -/
structure Row where
  demand : Option ℚ
  forecast : Option ℚ
deriving DecidableEq, Repr

/-- One record of the output series: the columns the simulator adds. -/
structure OutRow where
  order_quantity : ℚ
  on_hand_inventory : ℚ
  safety_stock_target : ℚ
  below_safety_stock : Bool
  stockout : Bool
  ending_inventory : ℚ
  error : Option ℚ
  is_projection : Bool
deriving DecidableEq, Repr

/-- Element of a column at a position, `none` past the end (only used at
in-range positions by the simulator). -/
def optAt (l : List (Option ℚ)) (t : ℕ) : Option ℚ :=
  (l.get? t).getD none

/-- Positional slice `l[a:b]` with Python semantics: the end position clips
to the length and, when negative, counts from the end. -/
def ilocSlice (l : List (Option ℚ)) (a : ℕ) (b : ℤ) : List (Option ℚ) :=
  (l.take (if b < 0 then (l.length + b).toNat else b.toNat)).drop a

/-- Pandas `Series.last_valid_index()` on the demand column, with the source's
substitution of `-1` when every value is missing: the largest index holding a
present value, as an integer. -/
def lastValidIndex (l : List (Option ℚ)) : ℤ :=
  ((List.range l.length).filter fun t => (optAt l t).isSome).foldl
    (fun (a : ℤ) (t : ℕ) => max a (t : ℤ)) (-1)

/-- The `error` column computed before the loop:
`error[t] = forecast[t] - demand[t]` for `t ≤ last_actual_period`
(missing when either operand is missing, as `NaN` propagates), missing for
every later period. -/
def errColOf (demands forecasts : List (Option ℚ)) (lap : ℤ) : List (Option ℚ) :=
  (List.range demands.length).map fun (t : ℕ) =>
    if (t : ℤ) ≤ lap then
      match optAt forecasts t, optAt demands t with
      | some f, some d => some (f - d)
      | _, _ => none
    else none

/-- Population standard deviation `np.std` (the square root is taken by the
external routine `sq`). -/
def popStd (sq : ℚ → ℚ) (l : List ℚ) : ℚ :=
  let m := l.sum / l.length
  sq ((l.map fun x => (x - m) ^ 2).sum / l.length)

/-- Pandas `Series.mean()` semantics: the mean of the present values,
missing (`NaN`) when none are present. -/
def meanPresent (l : List (Option ℚ)) : Option ℚ :=
  let present := l.filterMap id
  if present.length = 0 then none else some (present.sum / present.length)

/-- The source's `std_error_all`: population std of the non-missing
historical errors when any exist, else the cold-start proxy
`0.2 * mean(forecast)` when that mean is a positive number, else `0`
(also `0` when the mean itself is `NaN`, since `NaN > 0` is `False`). -/
def std_error_all (sq : ℚ → ℚ) (errorCol forecasts : List (Option ℚ)) : ℚ :=
  let hist := errorCol.filterMap id
  if 0 < hist.length then popStd sq hist
  else
    match meanPresent forecasts with
    | some m => if 0 < m then 0.2 * m else 0
    | none => 0

/-- Static context of one simulation run: the input columns and the values
the source computes once before the loop. -/
structure Ctx where
  n : ℕ
  demands : List (Option ℚ)
  forecasts : List (Option ℚ)
  errorCol : List (Option ℚ)
  lap : ℤ
  lead_time : ℤ
  review_period : ℤ
  safety_factor : ℚ
  use_rolling_ss : Bool
  rw : ℤ
  time_factor : ℚ
  base : ℚ
  init : ℚ
  sqrt : ℚ → ℚ

/-- The pre-loop setup of the source (lines 68–118): columns,
`last_actual_period`, error column, baseline safety stock, resolved rolling
window. -/
def mkCtx (sq : ℚ → ℚ) (df : List Row) (lead_time review_period : ℤ)
    (safety_factor initial_inventory : ℚ) (use_rolling_ss : Bool)
    (rolling_window : Option ℤ) (include_review_period_in_ss : Bool) : Ctx :=
  let demands := df.map Row.demand
  let forecasts := df.map Row.forecast
  let lap := lastValidIndex demands
  let errorCol := errColOf demands forecasts lap
  let time_factor :=
    if include_review_period_in_ss then sq ((lead_time + review_period : ℤ) : ℚ)
    else sq ((lead_time : ℤ) : ℚ)
  let se := std_error_all sq errorCol forecasts
  ⟨df.length, demands, forecasts, errorCol, lap, lead_time, review_period,
    safety_factor, use_rolling_ss, rolling_window.getD (2 * review_period),
    time_factor, safety_factor * se * time_factor, initial_inventory, sq⟩

/-- Defined errors among `df["error"].iloc[max(0, t - rolling_window) : t]`. -/
def windowErrors (c : Ctx) (t : ℕ) : List ℚ :=
  (ilocSlice c.errorCol (max 0 ((t : ℤ) - c.rw)).toNat (t : ℤ)).filterMap id

/-- The rolling safety-stock update of one period (source lines 122–133),
assuming the modulo does not fault: when the trigger condition holds and the
window holds at least one defined error, the recalculated target; otherwise
the current target unchanged. -/
def rolUpdate (c : Ctx) (t : ℕ) (cur : ℚ) : ℚ :=
  if c.use_rolling_ss ∧ c.rw ≤ (t : ℤ) ∧ (t : ℤ).fmod c.rw = 0 ∧ (t : ℤ) ≤ c.lap then
    if 0 < (windowErrors c t).length then
      c.safety_factor * popStd c.sqrt (windowErrors c t) * c.time_factor
    else cur
  else cur

/-- The count `future_periods = min(lead_time + review_period, n_periods - t)`. -/
def future_periods (c : Ctx) (t : ℕ) : ℤ :=
  min (c.lead_time + c.review_period) ((c.n : ℤ) - (t : ℤ))

/-- The forecast cells `df["forecast"].iloc[t : t + future_periods]`. -/
def futureForecastSlice (c : Ctx) (t : ℕ) : List (Option ℚ) :=
  ilocSlice c.forecasts t ((t : ℤ) + future_periods c t)

/-- The sum `future_demand`: that slice summed, missing values skipped. -/
def future_demand (c : Ctx) (t : ℕ) : ℚ :=
  ((futureForecastSlice c t).filterMap id).sum

/-- The demand realized at period `t` (source lines 161–165): the record's
own `demand` up to `last_actual_period`, its `forecast` afterwards; `none`
models a `NaN` cell. -/
def realized (c : Ctx) (t : ℕ) : Option ℚ :=
  if (t : ℤ) ≤ c.lap then optAt c.demands t else optAt c.forecasts t

/-- Mutable loop state of the source: current safety-stock target, on-hand
inventory, the in-transit FIFO, and the output rows recorded so far. -/
structure SimState where
  current_ss : ℚ
  on_hand : ℚ
  in_transit : List ℚ
  rows : List OutRow
deriving Repr

/-- State before the first period: baseline target, initial inventory,
`[0.0] * lead_time` (empty when `lead_time ≤ 0`), no rows. -/
def initState (c : Ctx) : SimState :=
  ⟨c.base, c.init, List.replicate c.lead_time.toNat 0, []⟩

/-- One loop iteration (source lines 120–182).  Faults exactly where Python
does: `t % rolling_window` is evaluated only when `use_rolling_ss` and
`t >= rolling_window` hold (short-circuit) and raises on a zero window;
`in_transit_orders.pop(0)` raises on an empty queue; `t % review_period`
raises on a zero review period. -/
def step (c : Ctx) (t : ℕ) (s : SimState) : Except RErr SimState :=
  if c.use_rolling_ss ∧ c.rw ≤ (t : ℤ) ∧ c.rw = 0 then .error .zeroDivisionError
  else
    let cur := rolUpdate c t s.current_ss
    if s.in_transit = [] then .error .indexError
    else
      let arriving := s.in_transit.headD 0
      let rest := s.in_transit.tail
      let on_hand := s.on_hand + arriving
      if c.review_period = 0 then .error .zeroDivisionError
      else
        let oq_queue :=
          if (t : ℤ).fmod c.review_period = 0 then
            let inventory_position := on_hand + rest.sum
            let order_up_to_level := future_demand c t + cur
            let q := max 0 (order_up_to_level - inventory_position)
            (q, rest ++ [q])
          else ((0 : ℚ), rest ++ [(0 : ℚ)])
        let fulfil :=
          (realized c t).elim ((0 : ℚ), true) fun d =>
            if d ≤ on_hand then (on_hand - d, false) else ((0 : ℚ), true)
        let row : OutRow :=
          ⟨oq_queue.1, on_hand, cur, decide (fulfil.1 < cur), fulfil.2,
            fulfil.1, optAt c.errorCol t, decide (c.lap < (t : ℤ))⟩
        .ok ⟨cur, fulfil.1, oq_queue.2, s.rows ++ [row]⟩

/-- The sequential period loop over a list of period indices. -/
def loop (c : Ctx) : List ℕ → SimState → Except RErr SimState
  | [], s => .ok s
  | t :: ts, s =>
    match step c t s with
    | .ok s' => loop c ts s'
    | .error e => .error e

/-- The simulator: setup, then the loop over `t = 0 … n-1`, returning the
recorded output rows (or the Python runtime error). -/
def forecast_periodic_review_inventory (sq : ℚ → ℚ) (df : List Row)
    (lead_time review_period : ℤ) (safety_factor initial_inventory : ℚ)
    (use_rolling_ss : Bool) (rolling_window : Option ℤ)
    (include_review_period_in_ss : Bool) : Except RErr (List OutRow) :=
  let c := mkCtx sq df lead_time review_period safety_factor initial_inventory
    use_rolling_ss rolling_window include_review_period_in_ss
  (loop c (List.range c.n) (initState c)).map SimState.rows

/-! ### Loop invariant -/

/-- The quantity scheduled to arrive at period `k`: `0` for the initial
padding of the queue (`k < lead_time`), else the order placed at period
`k - lead_time`. -/
def arrivalAt (c : Ctx) (rows : List OutRow) (k : ℕ) : ℚ :=
  if k < c.lead_time.toNat then 0
  else ((rows.get? (k - c.lead_time.toNat)).map OutRow.order_quantity).getD 0

/-- Ending inventory of the previous period (`initial_inventory` before
period 0). -/
def prevEnding (c : Ctx) (rows : List OutRow) (t : ℕ) : ℚ :=
  if t = 0 then c.init
  else ((rows.get? (t - 1)).map OutRow.ending_inventory).getD 0

/-- Safety-stock target recorded at the previous period (`base_safety_stock`
before period 0). -/
def prevSS (c : Ctx) (rows : List OutRow) (t : ℕ) : ℚ :=
  if t = 0 then c.base
  else ((rows.get? (t - 1)).map OutRow.safety_stock_target).getD 0

/-- Everything the claims need about one recorded output row. -/
def RowSpec (c : Ctx) (rows : List OutRow) (t : ℕ) (row : OutRow) : Prop :=
  row.error = optAt c.errorCol t ∧
  row.is_projection = decide (c.lap < (t : ℤ)) ∧
  row.safety_stock_target = rolUpdate c t (prevSS c rows t) ∧
  row.on_hand_inventory = prevEnding c rows t + arrivalAt c rows t ∧
  ((t : ℤ).fmod c.review_period ≠ 0 → row.order_quantity = 0) ∧
  0 ≤ row.order_quantity ∧
  (row.stockout = false → some (row.on_hand_inventory - row.ending_inventory) = realized c t) ∧
  (row.stockout = true → row.ending_inventory = 0) ∧
  0 ≤ row.ending_inventory ∧
  row.stockout = (realized c t).elim true fun d => decide (row.on_hand_inventory < d)

/-- Property `RowSpec` at every recorded index. -/
def RowsP (c : Ctx) (rows : List OutRow) : Prop :=
  ∀ t row, rows.get? t = some row → RowSpec c rows t row

/-- State invariant before processing period `t`. -/
def LoopInv (c : Ctx) (t : ℕ) (s : SimState) : Prop :=
  s.rows.length = t ∧
  s.in_transit =
    (List.range c.lead_time.toNat).map (fun i => arrivalAt c s.rows (t + i)) ∧
  s.on_hand = prevEnding c s.rows t ∧
  s.current_ss = prevSS c s.rows t ∧
  RowsP c s.rows

/-- Configurations under which no iteration faults: a positive lead time
(the queue is never empty), a nonzero review period, and a nonzero rolling
window whenever the rolling update is enabled. -/
def SafeC (c : Ctx) : Prop :=
  1 ≤ c.lead_time ∧ c.review_period ≠ 0 ∧ (c.use_rolling_ss = true → c.rw ≠ 0)

theorem initState_loopInv (c : Ctx) : LoopInv c 0 (initState c) := by
  refine ⟨rfl, ?_, rfl, rfl, ?_⟩
  · show List.replicate c.lead_time.toNat (0 : ℚ) = _
    refine List.ext_get (by simp) ?_
    intro i h1 h2
    simp only [List.get_replicate, List.get_map, List.get_range]
    simp only [List.length_replicate] at h1
    rw [arrivalAt, if_pos (by omega)]
  · intro t row h
    simp [initState] at h

theorem arrivalAt_append (c : Ctx) (rows : List OutRow) (row : OutRow) (k : ℕ)
    (h : k < rows.length + c.lead_time.toNat) :
    arrivalAt c (rows ++ [row]) k = arrivalAt c rows k := by
  unfold arrivalAt
  by_cases hk : k < c.lead_time.toNat
  · simp [hk]
  · have hlt : k - c.lead_time.toNat < rows.length := by omega
    simp only [hk, if_false]
    rw [List.get?_eq_getElem?, List.get?_eq_getElem?,
      List.getElem?_append_left hlt]

theorem prevEnding_append (c : Ctx) (rows : List OutRow) (row : OutRow) (t : ℕ)
    (h : t ≤ rows.length) :
    prevEnding c (rows ++ [row]) t = prevEnding c rows t := by
  unfold prevEnding
  by_cases ht : t = 0
  · simp [ht]
  · have hlt : t - 1 < rows.length := by omega
    simp only [ht, if_false]
    rw [List.get?_eq_getElem?, List.get?_eq_getElem?,
      List.getElem?_append_left hlt]

theorem prevSS_append (c : Ctx) (rows : List OutRow) (row : OutRow) (t : ℕ)
    (h : t ≤ rows.length) :
    prevSS c (rows ++ [row]) t = prevSS c rows t := by
  unfold prevSS
  by_cases ht : t = 0
  · simp [ht]
  · have hlt : t - 1 < rows.length := by omega
    simp only [ht, if_false]
    rw [List.get?_eq_getElem?, List.get?_eq_getElem?,
      List.getElem?_append_left hlt]

theorem rowSpec_append (c : Ctx) (rows : List OutRow) (row row' : OutRow) (t : ℕ)
    (h : t < rows.length) :
    RowSpec c rows t row' → RowSpec c (rows ++ [row]) t row' := by
  unfold RowSpec
  rw [prevSS_append c rows row t (le_of_lt h),
    prevEnding_append c rows row t (le_of_lt h),
    arrivalAt_append c rows row t (by omega)]
  exact id

theorem rowsP_append (c : Ctx) (rows : List OutRow) (row : OutRow)
    (hP : RowsP c rows) (hnew : RowSpec c (rows ++ [row]) rows.length row) :
    RowsP c (rows ++ [row]) := by
  intro t row' hget
  rcases lt_trichotomy t rows.length with ht | ht | ht
  · rw [List.get?_eq_getElem?, List.getElem?_append_left ht,
      ← List.get?_eq_getElem?] at hget
    exact rowSpec_append c rows row row' t ht (hP t row' hget)
  · subst ht
    rw [List.get?_eq_getElem?, List.getElem?_concat_length] at hget
    cases hget
    exact hnew
  · rw [List.get?_eq_none.mpr (by simp; omega)] at hget
    cases hget

theorem get?_concat (rows : List OutRow) (row : OutRow) (t : ℕ)
    (hlen : rows.length = t) : (rows ++ [row]).get? t = some row := by
  subst hlen
  rw [List.get?_eq_getElem?, List.getElem?_concat_length]

theorem step_eq_ok (c : Ctx) (t : ℕ) (css oh a : ℚ) (rest : List ℚ)
    (rows : List OutRow)
    (hno1 : ¬(c.use_rolling_ss ∧ c.rw ≤ (t : ℤ) ∧ c.rw = 0))
    (hR : c.review_period ≠ 0)
    (cur : ℚ) (hcur : cur = rolUpdate c t css)
    (O : ℚ × List ℚ)
    (hO : O = if (t : ℤ).fmod c.review_period = 0 then
        (max 0 (future_demand c t + cur - (oh + a + rest.sum)),
          rest ++ [max 0 (future_demand c t + cur - (oh + a + rest.sum))])
      else (0, rest ++ [0]))
    (F : ℚ × Bool)
    (hF : F = (realized c t).elim (0, true) fun d =>
        if d ≤ oh + a then (oh + a - d, false) else (0, true)) :
    step c t ⟨css, oh, a :: rest, rows⟩ =
      .ok ⟨cur, F.1, O.2, rows ++ [⟨O.1, oh + a, cur, decide (F.1 < cur), F.2,
        F.1, optAt c.errorCol t, decide (c.lap < (t : ℤ))⟩]⟩ := by
  subst hcur hO hF
  simp only [step, if_neg hno1, if_neg (List.cons_ne_nil a rest), if_neg hR,
    List.headD_cons, List.tail_cons]

theorem step_ok (c : Ctx) (t : ℕ) (s : SimState) (hsafe : SafeC c)
    (hinv : LoopInv c t s) :
    ∃ s', step c t s = .ok s' ∧ LoopInv c (t + 1) s' := by
  obtain ⟨hL, hR, hRoll⟩ := hsafe
  obtain ⟨css, oh, q, rows⟩ := s
  obtain ⟨hlen, hq, hoh, hss, hP⟩ := hinv
  simp only at hlen hq hoh hss hP
  have hno1 : ¬(c.use_rolling_ss ∧ c.rw ≤ (t : ℤ) ∧ c.rw = 0) := by
    rintro ⟨h1, _, h3⟩
    exact hRoll h1 h3
  obtain ⟨m, hm⟩ : ∃ m, c.lead_time.toNat = m + 1 :=
    ⟨c.lead_time.toNat - 1, by omega⟩
  have hqc : q = arrivalAt c rows t ::
      (List.range m).map fun i => arrivalAt c rows (t + (i + 1)) := by
    rw [hq, hm, List.range_succ_eq_map, List.map_cons, List.map_map]
    simp [Function.comp_def]
  subst hqc hoh hss
  set pE := prevEnding c rows t with hpE
  set pA := arrivalAt c rows t with hpA
  set cur := rolUpdate c t (prevSS c rows t) with hcur
  set rest := (List.range m).map (fun i => arrivalAt c rows (t + (i + 1)))
    with hrest
  obtain ⟨O, hO⟩ : ∃ O : ℚ × List ℚ,
      O = if (t : ℤ).fmod c.review_period = 0 then
        (max 0 (future_demand c t + cur - (pE + pA + rest.sum)),
          rest ++ [max 0 (future_demand c t + cur - (pE + pA + rest.sum))])
      else (0, rest ++ [0]) := ⟨_, rfl⟩
  obtain ⟨F, hF⟩ : ∃ F : ℚ × Bool,
      F = (realized c t).elim (0, true) fun d =>
        if d ≤ pE + pA then (pE + pA - d, false) else (0, true) := ⟨_, rfl⟩
  have hO2 : O.2 = rest ++ [O.1] := by
    rw [hO]
    by_cases hrev : (t : ℤ).fmod c.review_period = 0 <;> simp [hrev]
  have hO1nn : 0 ≤ O.1 := by
    rw [hO]
    by_cases hrev : (t : ℤ).fmod c.review_period = 0 <;> simp [hrev]
  have hO1z : (t : ℤ).fmod c.review_period ≠ 0 → O.1 = 0 := by
    intro h
    rw [hO, if_neg h]
  set row : OutRow := ⟨O.1, pE + pA, cur, decide (F.1 < cur), F.2, F.1,
    optAt c.errorCol t, decide (c.lap < (t : ℤ))⟩ with hrow
  have hget : (rows ++ [row]).get? t = some row := get?_concat rows row t hlen
  refine ⟨⟨cur, F.1, rest ++ [O.1], rows ++ [row]⟩, ?_, ?_, ?_, ?_, ?_, ?_⟩
  · rw [step_eq_ok c t (prevSS c rows t) pE pA rest rows hno1 hR cur hcur O hO
      F hF, hO2]
  · simpa using hlen
  · show rest ++ [O.1] = _
    rw [hm, List.range_succ, List.map_append]
    congr 1
    · rw [hrest]
      refine List.map_congr_left ?_
      intro i hi
      rw [List.mem_range] at hi
      have he : t + (i + 1) = t + 1 + i := by omega
      rw [he, arrivalAt_append c rows row (t + 1 + i) (by omega)]
    · simp only [List.map_cons, List.map_nil]
      rw [arrivalAt, if_neg (by omega)]
      have hidx : t + 1 + m - c.lead_time.toNat = t := by omega
      rw [hidx, hget]
      rfl
  · show F.1 = prevEnding c (rows ++ [row]) (t + 1)
    rw [prevEnding, if_neg (by omega)]
    simp only [Nat.add_sub_cancel, hget]
    rfl
  · show cur = prevSS c (rows ++ [row]) (t + 1)
    rw [prevSS, if_neg (by omega)]
    simp only [Nat.add_sub_cancel, hget]
    rfl
  · show RowsP c (rows ++ [row])
    refine rowsP_append c rows row hP ?_
    rw [hlen]
    have htlen : t ≤ rows.length := by omega
    refine ⟨rfl, rfl, ?_, ?_, hO1z, hO1nn, ?_, ?_, ?_, ?_⟩
    · show cur = rolUpdate c t (prevSS c (rows ++ [row]) t)
      rw [prevSS_append c rows row t htlen, hcur]
    · show pE + pA = prevEnding c (rows ++ [row]) t + arrivalAt c (rows ++ [row]) t
      rw [prevEnding_append c rows row t htlen,
        arrivalAt_append c rows row t (by omega), hpE, hpA]
    · show F.2 = false → some (pE + pA - F.1) = realized c t
      rcases hreal : realized c t with _ | d
      · rw [hreal] at hF
        simp only [Option.elim_none] at hF
        rw [hF]
        intro h
        cases h
      · rw [hreal] at hF
        simp only [Option.elim_some] at hF
        by_cases hd : d ≤ pE + pA
        · rw [if_pos hd] at hF
          rw [hF]
          intro _
          congr 1
          ring
        · rw [if_neg hd] at hF
          rw [hF]
          intro h
          cases h
    · show F.2 = true → F.1 = 0
      rcases hreal : realized c t with _ | d
      · rw [hreal] at hF
        simp only [Option.elim_none] at hF
        rw [hF]
        intro _
        rfl
      · rw [hreal] at hF
        simp only [Option.elim_some] at hF
        by_cases hd : d ≤ pE + pA
        · rw [if_pos hd] at hF
          rw [hF]
          intro h
          cases h
        · rw [if_neg hd] at hF
          rw [hF]
          intro _
          rfl
    · show 0 ≤ F.1
      rcases hreal : realized c t with _ | d
      · rw [hreal] at hF
        simp only [Option.elim_none] at hF
        rw [hF]
      · rw [hreal] at hF
        simp only [Option.elim_some] at hF
        by_cases hd : d ≤ pE + pA
        · rw [if_pos hd] at hF
          rw [hF]
          simpa using hd
        · rw [if_neg hd] at hF
          rw [hF]
    · show F.2 = (realized c t).elim true fun d => decide (pE + pA < d)
      rcases hreal : realized c t with _ | d
      · rw [hreal] at hF
        rw [hF]
        rfl
      · rw [hreal] at hF
        simp only [Option.elim_some] at hF ⊢
        by_cases hd : d ≤ pE + pA
        · rw [if_pos hd] at hF
          rw [hF]
          simp [not_lt.mpr hd]
        · rw [if_neg hd] at hF
          rw [hF]
          simp [lt_of_not_le hd]

theorem loop_ok (c : Ctx) (hsafe : SafeC c) :
    ∀ (k a : ℕ) (s : SimState), LoopInv c a s →
      ∃ s', loop c (List.range' a k) s = .ok s' ∧ LoopInv c (a + k) s' := by
  intro k
  induction k with
  | zero => exact fun a s h => ⟨s, rfl, by simpa using h⟩
  | succ k ih =>
    intro a s h
    obtain ⟨s1, hs1, hinv1⟩ := step_ok c a s hsafe h
    obtain ⟨s', hs', hinv'⟩ := ih (a + 1) s1 hinv1
    refine ⟨s', ?_, ?_⟩
    · rw [List.range'_succ]
      simp only [loop, hs1, hs']
    · have he : a + 1 + k = a + (k + 1) := by omega
      rwa [he] at hinv'

theorem run_ok (c : Ctx) (hsafe : SafeC c) :
    ∃ s', loop c (List.range c.n) (initState c) = .ok s' ∧ LoopInv c c.n s' := by
  obtain ⟨s', h1, h2⟩ := loop_ok c hsafe c.n 0 (initState c) (initState_loopInv c)
  rw [List.range_eq_range']
  exact ⟨s', h1, by simpa using h2⟩

theorem mkCtx_n (sq : ℚ → ℚ) (df : List Row) (L R : ℤ) (sf ii : ℚ) (ur : Bool)
    (rwin : Option ℤ) (inc : Bool) :
    (mkCtx sq df L R sf ii ur rwin inc).n = df.length := rfl

theorem mkCtx_lead_time (sq : ℚ → ℚ) (df : List Row) (L R : ℤ) (sf ii : ℚ)
    (ur : Bool) (rwin : Option ℤ) (inc : Bool) :
    (mkCtx sq df L R sf ii ur rwin inc).lead_time = L := rfl

theorem mkCtx_review_period (sq : ℚ → ℚ) (df : List Row) (L R : ℤ) (sf ii : ℚ)
    (ur : Bool) (rwin : Option ℤ) (inc : Bool) :
    (mkCtx sq df L R sf ii ur rwin inc).review_period = R := rfl

theorem mkCtx_use_rolling_ss (sq : ℚ → ℚ) (df : List Row) (L R : ℤ) (sf ii : ℚ)
    (ur : Bool) (rwin : Option ℤ) (inc : Bool) :
    (mkCtx sq df L R sf ii ur rwin inc).use_rolling_ss = ur := rfl

theorem mkCtx_rw (sq : ℚ → ℚ) (df : List Row) (L R : ℤ) (sf ii : ℚ) (ur : Bool)
    (rwin : Option ℤ) (inc : Bool) :
    (mkCtx sq df L R sf ii ur rwin inc).rw = rwin.getD (2 * R) := rfl

theorem mkCtx_lap (sq : ℚ → ℚ) (df : List Row) (L R : ℤ) (sf ii : ℚ) (ur : Bool)
    (rwin : Option ℤ) (inc : Bool) :
    (mkCtx sq df L R sf ii ur rwin inc).lap =
      lastValidIndex (df.map Row.demand) := rfl

theorem mkCtx_demands (sq : ℚ → ℚ) (df : List Row) (L R : ℤ) (sf ii : ℚ)
    (ur : Bool) (rwin : Option ℤ) (inc : Bool) :
    (mkCtx sq df L R sf ii ur rwin inc).demands = df.map Row.demand := rfl

theorem mkCtx_forecasts (sq : ℚ → ℚ) (df : List Row) (L R : ℤ) (sf ii : ℚ)
    (ur : Bool) (rwin : Option ℤ) (inc : Bool) :
    (mkCtx sq df L R sf ii ur rwin inc).forecasts = df.map Row.forecast := rfl

theorem mkCtx_errorCol (sq : ℚ → ℚ) (df : List Row) (L R : ℤ) (sf ii : ℚ)
    (ur : Bool) (rwin : Option ℤ) (inc : Bool) :
    (mkCtx sq df L R sf ii ur rwin inc).errorCol =
      errColOf (df.map Row.demand) (df.map Row.forecast)
        (lastValidIndex (df.map Row.demand)) := rfl

theorem mkCtx_init (sq : ℚ → ℚ) (df : List Row) (L R : ℤ) (sf ii : ℚ)
    (ur : Bool) (rwin : Option ℤ) (inc : Bool) :
    (mkCtx sq df L R sf ii ur rwin inc).init = ii := rfl

theorem mkCtx_base (sq : ℚ → ℚ) (df : List Row) (L R : ℤ) (sf ii : ℚ)
    (ur : Bool) (rwin : Option ℤ) (inc : Bool) :
    (mkCtx sq df L R sf ii ur rwin inc).base =
      sf * std_error_all sq (mkCtx sq df L R sf ii ur rwin inc).errorCol
        (df.map Row.forecast) * (mkCtx sq df L R sf ii ur rwin inc).time_factor :=
  rfl

theorem safeC_mk (sq : ℚ → ℚ) (df : List Row) (L R : ℤ) (sf ii : ℚ) (ur : Bool)
    (rwin : Option ℤ) (inc : Bool) (hL : 1 ≤ L) (hR : R ≠ 0)
    (hroll : ur = true → rwin.getD (2 * R) ≠ 0) :
    SafeC (mkCtx sq df L R sf ii ur rwin inc) :=
  ⟨hL, hR, hroll⟩

/-- Under a safe configuration the simulator succeeds, and its output rows
satisfy the per-row specification. -/
theorem sim_spec (sq : ℚ → ℚ) (df : List Row) (L R : ℤ) (sf ii : ℚ) (ur : Bool)
    (rwin : Option ℤ) (inc : Bool)
    (hsafe : SafeC (mkCtx sq df L R sf ii ur rwin inc)) :
    ∃ rows, forecast_periodic_review_inventory sq df L R sf ii ur rwin inc =
        .ok rows ∧ rows.length = df.length ∧
        RowsP (mkCtx sq df L R sf ii ur rwin inc) rows := by
  obtain ⟨s', h1, hlen, _, _, _, hP⟩ := run_ok _ hsafe
  refine ⟨s'.rows, ?_, by rw [hlen, mkCtx_n], hP⟩
  simp only [forecast_periodic_review_inventory, h1, Except.map]

/-- The rows returned by a successful simulation satisfy the per-row
specification. -/
theorem sim_spec_of_ok (sq : ℚ → ℚ) (df : List Row) (L R : ℤ) (sf ii : ℚ)
    (ur : Bool) (rwin : Option ℤ) (inc : Bool) (rows : List OutRow)
    (hsafe : SafeC (mkCtx sq df L R sf ii ur rwin inc))
    (hrun : forecast_periodic_review_inventory sq df L R sf ii ur rwin inc =
      .ok rows) :
    rows.length = df.length ∧
      RowsP (mkCtx sq df L R sf ii ur rwin inc) rows := by
  obtain ⟨rows', h1, h2, h3⟩ := sim_spec sq df L R sf ii ur rwin inc hsafe
  rw [hrun] at h1
  injection h1 with h1
  subst h1
  exact ⟨h2, h3⟩

/-! ### Auxiliary facts about the setup computations -/

theorem foldl_max_lt (l : List ℕ) (b n : ℤ) (hb : b < n)
    (hl : ∀ x ∈ l, (x : ℤ) < n) :
    l.foldl (fun (a : ℤ) (t : ℕ) => max a (t : ℤ)) b < n := by
  induction l generalizing b with
  | nil => exact hb
  | cons x xs ih =>
    rw [List.foldl_cons]
    exact ih _ (max_lt hb (hl x (by simp))) fun y hy => hl y (by simp [hy])

theorem lastValidIndex_lt_length (l : List (Option ℚ)) :
    lastValidIndex l < (l.length : ℤ) := by
  unfold lastValidIndex
  refine foldl_max_lt _ _ _ (by omega) fun x hx => ?_
  rw [List.mem_filter] at hx
  have := List.mem_range.mp hx.1
  omega

theorem lastValidIndex_of_all_none (l : List (Option ℚ))
    (h : ∀ x ∈ l, x = none) : lastValidIndex l = -1 := by
  unfold lastValidIndex
  have hf : (List.range l.length).filter (fun t => (optAt l t).isSome) = [] := by
    rw [List.filter_eq_nil]
    intro t ht
    rw [List.mem_range] at ht
    have hn : optAt l t = none := by
      unfold optAt
      rcases hg : l.get? t with _ | x
      · rfl
      · have hx := h x (List.get?_mem hg)
        rw [hx]
        rfl
    simp [hn]
  rw [hf]
  rfl

theorem optAt_errColOf (demands forecasts : List (Option ℚ)) (lap : ℤ) (t : ℕ)
    (ht : t < demands.length) :
    optAt (errColOf demands forecasts lap) t =
      if (t : ℤ) ≤ lap then
        match optAt forecasts t, optAt demands t with
        | some f, some d => some (f - d)
        | _, _ => none
      else none := by
  unfold errColOf optAt
  rw [List.get?_eq_getElem?, List.getElem?_map, List.getElem?_range ht]
  rfl

theorem errColOf_filterMap_nil (demands forecasts : List (Option ℚ)) :
    (errColOf demands forecasts (-1)).filterMap id = [] := by
  rw [List.filterMap_eq_nil]
  intro a ha
  unfold errColOf at ha
  rw [List.mem_map] at ha
  obtain ⟨t, _, rfl⟩ := ha
  rw [if_neg (by omega)]
  rfl

theorem ilocSlice_eq_map (l : List (Option ℚ)) (a : ℕ) (b : ℤ) (h0 : 0 ≤ b)
    (hab : a ≤ b.toNat) (hbn : b.toNat ≤ l.length) :
    ilocSlice l a b =
      (List.range (b.toNat - a)).map fun i => optAt l (a + i) := by
  unfold ilocSlice
  rw [if_neg (by omega)]
  refine List.ext_get? fun i => ?_
  rw [List.get?_drop]
  by_cases hi : i < b.toNat - a
  · have h1 : a + i < b.toNat := by omega
    have h2 : a + i < l.length := by omega
    rw [List.get?_take h1, List.get?_eq_getElem?, List.get?_eq_getElem?,
      List.getElem?_map, List.getElem?_range hi]
    simp [optAt, List.getElem?_eq_getElem h2, List.get?_eq_getElem?]
  · have h1 : (l.take b.toNat).length ≤ a + i := by
      rw [List.length_take]
      omega
    rw [List.get?_eq_getElem?, List.getElem?_eq_none h1,
      List.get?_eq_getElem?, List.getElem?_eq_none
        (by rw [List.length_map, List.length_range]; omega)]

theorem sim_empty (sq : ℚ → ℚ) (L R : ℤ) (sf ii : ℚ) (ur : Bool)
    (rwin : Option ℤ) (inc : Bool) :
    forecast_periodic_review_inventory sq [] L R sf ii ur rwin inc =
      .ok [] := rfl

theorem sim_indexError (sq : ℚ → ℚ) (df : List Row) (L R : ℤ) (sf ii : ℚ)
    (rwin : Option ℤ) (inc : Bool) (hL : L ≤ 0) (hn : df ≠ []) :
    forecast_periodic_review_inventory sq df L R sf ii false rwin inc =
      .error .indexError := by
  obtain ⟨r0, df', rfl⟩ : ∃ r0 df', df = r0 :: df' := by
    cases df with
    | nil => exact absurd rfl hn
    | cons r0 df' => exact ⟨r0, df', rfl⟩
  set c := mkCtx sq (r0 :: df') L R sf ii false rwin inc with hc
  have hnr : ¬(c.use_rolling_ss = true ∧ c.rw ≤ ((0 : ℕ) : ℤ) ∧ c.rw = 0) := by
    rintro ⟨h1, _, _⟩
    rw [hc, mkCtx_use_rolling_ss] at h1
    cases h1
  have hq0 : (initState c).in_transit = [] := by
    rw [initState]
    have h2 : c.lead_time.toNat = 0 := by
      rw [hc, mkCtx_lead_time]
      omega
    rw [h2]
    rfl
  have hstep : step c 0 (initState c) = .error .indexError := by
    rw [step, if_neg hnr, if_pos hq0]
  have hn1 : c.n = df'.length + 1 := rfl
  rw [forecast_periodic_review_inventory]
  rw [← hc, hn1, List.range_succ_eq_map]
  simp only [loop, hstep]
  rfl

theorem sim_zeroDivision (sq : ℚ → ℚ) (df : List Row) (L : ℤ) (sf ii : ℚ)
    (rwin : Option ℤ) (inc : Bool) (hL : 1 ≤ L) (hn : df ≠ []) :
    forecast_periodic_review_inventory sq df L 0 sf ii false rwin inc =
      .error .zeroDivisionError := by
  obtain ⟨r0, df', rfl⟩ : ∃ r0 df', df = r0 :: df' := by
    cases df with
    | nil => exact absurd rfl hn
    | cons r0 df' => exact ⟨r0, df', rfl⟩
  set c := mkCtx sq (r0 :: df') L 0 sf ii false rwin inc with hc
  have hnr : ¬(c.use_rolling_ss = true ∧ c.rw ≤ ((0 : ℕ) : ℤ) ∧ c.rw = 0) := by
    rintro ⟨h1, _, _⟩
    rw [hc, mkCtx_use_rolling_ss] at h1
    cases h1
  have hq0 : ¬(initState c).in_transit = [] := by
    rw [initState]
    intro hcon
    have h2 : c.lead_time.toNat = 0 := by
      simpa using congrArg List.length hcon
    rw [hc, mkCtx_lead_time] at h2
    omega
  have hrp : c.review_period = 0 := by
    rw [hc, mkCtx_review_period]
  have hstep : step c 0 (initState c) = .error .zeroDivisionError := by
    rw [step, if_neg hnr, if_neg hq0, if_pos hrp]
  have hn1 : c.n = df'.length + 1 := rfl
  rw [forecast_periodic_review_inventory]
  rw [← hc, hn1, List.range_succ_eq_map]
  simp only [loop, hstep]
  rfl


/-! ### Claims -/

/-- Claim C2 counterexample: an empty input series with otherwise valid
parameters does not fail: the simulator returns a normal (empty) output,
refuting that such a call fails with an `InvalidParameter` error before the
simulation starts. -/
theorem claim_C2_counterexample :
    forecast_periodic_review_inventory id [] 1 1 0 0 false none true =
      .ok [] := rfl

/-- Claim C2 (amended): the source performs no parameter validation at all.
An empty input series returns a normal output with no error for every
parameter combination; a zero `review_period` (with `lead_time ≥ 1`, a
non-empty series and rolling disabled) fails at the first loop iteration with
a division-by-zero error; a negative `lead_time` (with a non-empty series and
rolling disabled) fails at the first loop iteration with an index error when
popping the empty in-transit queue — in neither case does a fail-fast
`InvalidParameter` check run before the simulation. -/
theorem claim_C2 :
    (∀ (sq : ℚ → ℚ) (L R : ℤ) (sf ii : ℚ) (ur : Bool) (rwin : Option ℤ)
        (inc : Bool),
      forecast_periodic_review_inventory sq [] L R sf ii ur rwin inc =
        .ok []) ∧
    (∀ (sq : ℚ → ℚ) (df : List Row) (L : ℤ) (sf ii : ℚ) (rwin : Option ℤ)
        (inc : Bool), 1 ≤ L → df ≠ [] →
      forecast_periodic_review_inventory sq df L 0 sf ii false rwin inc =
        .error .zeroDivisionError) ∧
    (∀ (sq : ℚ → ℚ) (df : List Row) (L R : ℤ) (sf ii : ℚ) (rwin : Option ℤ)
        (inc : Bool), L < 0 → df ≠ [] →
      forecast_periodic_review_inventory sq df L R sf ii false rwin inc =
        .error .indexError) :=
  ⟨fun sq L R sf ii ur rwin inc => sim_empty sq L R sf ii ur rwin inc,
    fun sq df L sf ii rwin inc hL hn =>
      sim_zeroDivision sq df L sf ii rwin inc hL hn,
    fun sq df L R sf ii rwin inc hL hn =>
      sim_indexError sq df L R sf ii rwin inc (le_of_lt hL) hn⟩

theorem claim_C2_witness :
    forecast_periodic_review_inventory id [] 2 3 1 5 true (some 4) false =
      .ok [] ∧
    forecast_periodic_review_inventory id [⟨some 1, some 2⟩] 1 0 0 0 false
      none true = .error .zeroDivisionError ∧
    forecast_periodic_review_inventory id [⟨some 1, some 2⟩] (-1) 1 0 0 false
      none true = .error .indexError :=
  ⟨claim_C2.1 id 2 3 1 5 true (some 4) false,
    claim_C2.2.1 id [⟨some 1, some 2⟩] 1 0 0 none true (by norm_num)
      (by simp),
    claim_C2.2.2 id [⟨some 1, some 2⟩] (-1) 1 0 0 none true (by norm_num)
      (by simp)⟩

/-- Claim C1 counterexample: with `lead_time = 0` and a non-empty series the
simulation does not run: `in_transit_orders = [0.0] * 0 = []`, and
`pop(0)` on the empty queue raises an index error at the very first period,
refuting that "with lead_time = 0 the simulation still runs". -/
theorem claim_C1_counterexample :
    forecast_periodic_review_inventory id [⟨some 1, some 1⟩] 0 1 0 0 false
      none true = .error .indexError := rfl

/-- Claim C1 (amended): the FIFO lead-time law holds for `lead_time ≥ 1`:
at every period `t` of a successful run, the on-hand inventory recorded at
`t` (pre-demand) equals the previous period's ending inventory (or
`initial_inventory` at `t = 0`) plus exactly the order placed at period
`t - lead_time` — so an order placed at `t` is added to on-hand exactly at
`t + lead_time`; for `t < lead_time` the arriving quantity is the `0` the
queue was initialised with.  With `lead_time = 0`, however, the simulation
fails at period 0 with an index error (empty in-transit queue popped), so
the claim's `lead_time = 0` case does not run. -/
theorem claim_C1 :
    (∀ (sq : ℚ → ℚ) (df : List Row) (L R : ℤ) (sf ii : ℚ) (ur : Bool)
        (rwin : Option ℤ) (inc : Bool) (rows : List OutRow),
      1 ≤ L → R ≠ 0 → (ur = true → rwin.getD (2 * R) ≠ 0) →
      forecast_periodic_review_inventory sq df L R sf ii ur rwin inc =
        .ok rows →
      ∀ t row, rows.get? t = some row →
        (∀ rowP, L.toNat ≤ t → rows.get? (t - L.toNat) = some rowP →
          row.on_hand_inventory =
            prevEnding (mkCtx sq df L R sf ii ur rwin inc) rows t +
              rowP.order_quantity) ∧
        (t < L.toNat →
          row.on_hand_inventory =
            prevEnding (mkCtx sq df L R sf ii ur rwin inc) rows t)) ∧
    (∀ (sq : ℚ → ℚ) (df : List Row) (R : ℤ) (sf ii : ℚ) (rwin : Option ℤ)
        (inc : Bool), df ≠ [] →
      forecast_periodic_review_inventory sq df 0 R sf ii false rwin inc =
        .error .indexError) := by
  constructor
  · intro sq df L R sf ii ur rwin inc rows hL hR hroll hrun t row hget
    obtain ⟨hlen, hP⟩ := sim_spec_of_ok sq df L R sf ii ur rwin inc rows
      (safeC_mk sq df L R sf ii ur rwin inc hL hR hroll) hrun
    obtain ⟨-, -, -, h4, -⟩ := hP t row hget
    constructor
    · intro rowP hLt hgetP
      rw [h4, arrivalAt, mkCtx_lead_time, if_neg (by omega), hgetP]
      rfl
    · intro hLt
      rw [h4, arrivalAt, mkCtx_lead_time, if_pos hLt, add_zero]
  · intro sq df R sf ii rwin inc hn
    exact sim_indexError sq df 0 R sf ii rwin inc le_rfl hn

theorem claim_C1_witness :
    ((1 : ℤ) ≤ 1 ∧ (1 : ℤ) ≠ 0 ∧
      forecast_periodic_review_inventory id
        [⟨some 3, some 5⟩, ⟨some 4, some 4⟩, ⟨none, some 6⟩] 1 1 0 10 false
        none true =
        .ok [⟨0, 10, 0, false, false, 7, some 2, false⟩,
          ⟨3, 7, 0, false, false, 3, some 0, false⟩,
          ⟨0, 6, 0, false, false, 0, none, true⟩] ∧
      (7 : ℚ) =
        prevEnding (mkCtx id
          [⟨some 3, some 5⟩, ⟨some 4, some 4⟩, ⟨none, some 6⟩] 1 1 0 10 false
          none true)
          [⟨0, 10, 0, false, false, 7, some 2, false⟩,
            ⟨3, 7, 0, false, false, 3, some 0, false⟩,
            ⟨0, 6, 0, false, false, 0, none, true⟩] 1 +
          (0 : ℚ)) ∧
    forecast_periodic_review_inventory id [⟨some 2, some 2⟩] 0 1 0 0 false
      none true = .error .indexError := by
  refine ⟨⟨by norm_num, by norm_num, by with_unfolding_all rfl, ?_⟩, ?_⟩
  · exact (claim_C1.1 id
      [⟨some 3, some 5⟩, ⟨some 4, some 4⟩, ⟨none, some 6⟩] 1 1 0 10 false
      none true
      [⟨0, 10, 0, false, false, 7, some 2, false⟩,
        ⟨3, 7, 0, false, false, 3, some 0, false⟩,
        ⟨0, 6, 0, false, false, 0, none, true⟩]
      (by norm_num) (by norm_num) (by simp) (by with_unfolding_all rfl) 1
      ⟨3, 7, 0, false, false, 3, some 0, false⟩ rfl).1
      ⟨0, 10, 0, false, false, 7, some 2, false⟩ (by norm_num) rfl
  · exact claim_C1.2 id [⟨some 2, some 2⟩] 1 0 0 none true (by simp)

/-- Input fixture: three periods, demand present for the first two. -/
def dfA : List Row := [⟨some 3, some 5⟩, ⟨some 4, some 4⟩, ⟨none, some 6⟩]

/-- Output of the simulator on `dfA` with `lead_time = 1`, `review_period
= 1`, `safety_factor = 0`, `initial_inventory = 10`. -/
def rowsA : List OutRow :=
  [⟨0, 10, 0, false, false, 7, some 2, false⟩,
    ⟨3, 7, 0, false, false, 3, some 0, false⟩,
    ⟨0, 6, 0, false, false, 0, none, true⟩]

theorem runA : forecast_periodic_review_inventory id dfA 1 1 0 10 false none
    true = .ok rowsA := by with_unfolding_all rfl

/-- Claim C3 counterexample: a series whose second period has no forecast
value does not make the simulator fail: the run returns a normal output (the
offending projected period merely takes the stockout branch), refuting that
the simulator fails with a `MalformedInput` error at the first such
period. -/
theorem claim_C3_counterexample :
    forecast_periodic_review_inventory id [⟨some 1, some 1⟩, ⟨none, none⟩] 1 1
      0 10 false none true =
      .ok [⟨0, 10, 0, false, false, 9, some 0, false⟩,
        ⟨0, 9, 0, false, true, 0, none, true⟩] := by with_unfolding_all rfl

/-- Claim C3 (amended): the simulator never fails on a missing forecast.
Under valid parameters the run always returns a normal output, and a
projected period whose forecast is missing realizes a `NaN` demand, which
compares false against on-hand inventory and so takes the stockout branch
(`stockout = 1`, `ending_inventory = 0`); missing forecasts are simply
skipped by the sums and means that use the forecast column. -/
theorem claim_C3 (sq : ℚ → ℚ) (df : List Row) (L R : ℤ) (sf ii : ℚ)
    (ur : Bool) (rwin : Option ℤ) (inc : Bool) (hL : 1 ≤ L) (hR : R ≠ 0)
    (hroll : ur = true → rwin.getD (2 * R) ≠ 0) :
    ∃ rows, forecast_periodic_review_inventory sq df L R sf ii ur rwin inc =
        .ok rows ∧
      ∀ t row, rows.get? t = some row →
        lastValidIndex (df.map Row.demand) < (t : ℤ) →
        optAt (df.map Row.forecast) t = none →
        row.stockout = true ∧ row.ending_inventory = 0 := by
  obtain ⟨rows, hrun, hlen, hP⟩ := sim_spec sq df L R sf ii ur rwin inc
    (safeC_mk sq df L R sf ii ur rwin inc hL hR hroll)
  refine ⟨rows, hrun, ?_⟩
  intro t row hget hproj hmiss
  obtain ⟨-, -, -, -, -, -, -, h8, -, h10⟩ := hP t row hget
  have hreal : realized (mkCtx sq df L R sf ii ur rwin inc) t = none := by
    rw [realized, mkCtx_lap, if_neg (by omega), mkCtx_forecasts]
    exact hmiss
  rw [hreal] at h10
  simp only [Option.elim_none] at h10
  exact ⟨h10, h8 h10⟩

theorem claim_C3_witness :
    ∃ rows, forecast_periodic_review_inventory id
        [⟨some 1, some 1⟩, ⟨none, none⟩] 1 1 0 10 false none true =
        .ok rows ∧
      ∀ t row, rows.get? t = some row →
        lastValidIndex ([⟨some 1, some 1⟩, ⟨none, none⟩].map Row.demand) <
          (t : ℤ) →
        optAt ([⟨some 1, some 1⟩, ⟨none, none⟩].map Row.forecast) t = none →
        row.stockout = true ∧ row.ending_inventory = 0 :=
  claim_C3 id [⟨some 1, some 1⟩, ⟨none, none⟩] 1 1 0 10 false none true
    (by norm_num) (by norm_num) (by simp)

/-- Claim C4 counterexample: with `initial_inventory = -1` the recorded
pre-demand `on_hand_inventory` of period 0 is `-1 < 0`, refuting that
`on_hand_inventory` is never negative at any period. -/
theorem claim_C4_counterexample :
    forecast_periodic_review_inventory id [⟨some 1, some 1⟩] 1 1 0 (-1) false
      none true = .ok [⟨2, -1, 0, false, true, 0, some 0, false⟩] ∧
      ((-1 : ℚ) < 0) :=
  ⟨by with_unfolding_all rfl, by norm_num⟩

/-- Claim C4 (amended): conservation holds as claimed — for every period of
a successful run, if `stockout` is false then
`ending_inventory = on_hand_inventory − realized demand` (the actual demand
when `t ≤ last_actual_period`, the forecast otherwise, and that value is
present), and if `stockout` is true then `ending_inventory = 0`; moreover
`ending_inventory` is never negative.  The recorded pre-demand
`on_hand_inventory`, however, is non-negative only under the additional
hypothesis `initial_inventory ≥ 0` (the counterexample shows period 0
records the negative initial value otherwise). -/
theorem claim_C4 (sq : ℚ → ℚ) (df : List Row) (L R : ℤ) (sf ii : ℚ)
    (ur : Bool) (rwin : Option ℤ) (inc : Bool) (rows : List OutRow)
    (hL : 1 ≤ L) (hR : R ≠ 0) (hroll : ur = true → rwin.getD (2 * R) ≠ 0)
    (hrun : forecast_periodic_review_inventory sq df L R sf ii ur rwin inc =
      .ok rows) :
    ∀ t row, rows.get? t = some row →
      (row.stockout = false →
        some (row.on_hand_inventory - row.ending_inventory) =
          (if (t : ℤ) ≤ lastValidIndex (df.map Row.demand) then
            optAt (df.map Row.demand) t
          else optAt (df.map Row.forecast) t)) ∧
      (row.stockout = true → row.ending_inventory = 0) ∧
      0 ≤ row.ending_inventory ∧
      (0 ≤ ii → 0 ≤ row.on_hand_inventory) := by
  obtain ⟨hlen, hP⟩ := sim_spec_of_ok sq df L R sf ii ur rwin inc rows
    (safeC_mk sq df L R sf ii ur rwin inc hL hR hroll) hrun
  intro t row hget
  obtain ⟨-, -, -, h4, -, -, h7, h8, h9, -⟩ := hP t row hget
  refine ⟨h7, h8, h9, ?_⟩
  intro hii
  rw [h4]
  have harr : 0 ≤ arrivalAt (mkCtx sq df L R sf ii ur rwin inc) rows t := by
    rw [arrivalAt]
    split
    · exact le_refl 0
    · rcases hg : rows.get? (t - (mkCtx sq df L R sf ii ur rwin
          inc).lead_time.toNat) with _ | rowP
      · simp [hg]
      · obtain ⟨-, -, -, -, -, h6, -, -, -, -⟩ := hP _ rowP hg
        simpa [hg] using h6
  have hpe : 0 ≤ prevEnding (mkCtx sq df L R sf ii ur rwin inc) rows t := by
    rw [prevEnding]
    split
    · exact hii
    · rcases hg : rows.get? (t - 1) with _ | rowP
      · simp [hg]
      · obtain ⟨-, -, -, -, -, -, -, -, h9p, -⟩ := hP _ rowP hg
        simpa [hg] using h9p
  exact add_nonneg hpe harr

theorem claim_C4_witness :
    forecast_periodic_review_inventory id dfA 1 1 0 10 false none true =
      .ok rowsA ∧
    ∀ t row, rowsA.get? t = some row →
      (row.stockout = false →
        some (row.on_hand_inventory - row.ending_inventory) =
          (if (t : ℤ) ≤ lastValidIndex (dfA.map Row.demand) then
            optAt (dfA.map Row.demand) t
          else optAt (dfA.map Row.forecast) t)) ∧
      (row.stockout = true → row.ending_inventory = 0) ∧
      0 ≤ row.ending_inventory ∧
      (0 ≤ (10 : ℚ) → 0 ≤ row.on_hand_inventory) :=
  ⟨runA, claim_C4 id dfA 1 1 0 10 false none true rowsA (by norm_num)
    (by norm_num) (by simp) runA⟩

/-- Input fixture: the spec's scenario — six periods, three with actual
demand `10`, forecast `10` throughout. -/
def dfB : List Row :=
  [⟨some 10, some 10⟩, ⟨some 10, some 10⟩, ⟨some 10, some 10⟩,
    ⟨none, some 10⟩, ⟨none, some 10⟩, ⟨none, some 10⟩]

/-- Output of the simulator on `dfB` with `lead_time = 1`,
`review_period = 3`, `safety_factor = 0`, `initial_inventory = 0`. -/
def rowsB : List OutRow :=
  [⟨40, 0, 0, false, true, 0, some 0, false⟩,
    ⟨0, 40, 0, false, false, 30, some 0, false⟩,
    ⟨0, 30, 0, false, false, 20, some 0, false⟩,
    ⟨10, 20, 0, false, false, 10, none, true⟩,
    ⟨0, 20, 0, false, false, 10, none, true⟩,
    ⟨0, 10, 0, false, false, 0, none, true⟩]

theorem runB : forecast_periodic_review_inventory id dfB 1 3 0 0 false none
    true = .ok rowsB := by with_unfolding_all rfl

/-- Claim C5: review cadence.  On every period `t` of a successful run with
`t mod review_period ≠ 0` the recorded `order_quantity` is exactly `0` (a
possibly nonzero order only occurs at `0, R, 2R, …`), and after every prefix
of the loop the in-transit queue length is exactly `lead_time` (the `0`
pushed on non-review periods keeps it constant). -/
theorem claim_C5 (sq : ℚ → ℚ) (df : List Row) (L R : ℤ) (sf ii : ℚ)
    (ur : Bool) (rwin : Option ℤ) (inc : Bool) (rows : List OutRow)
    (hL : 1 ≤ L) (hR : R ≠ 0) (hroll : ur = true → rwin.getD (2 * R) ≠ 0)
    (hrun : forecast_periodic_review_inventory sq df L R sf ii ur rwin inc =
      .ok rows) :
    (∀ t row, rows.get? t = some row → (t : ℤ).fmod R ≠ 0 →
      row.order_quantity = 0) ∧
    (∀ t, t ≤ df.length →
      ∃ s, loop (mkCtx sq df L R sf ii ur rwin inc) (List.range' 0 t)
          (initState (mkCtx sq df L R sf ii ur rwin inc)) = .ok s ∧
        s.in_transit.length = L.toNat) := by
  have hsafe := safeC_mk sq df L R sf ii ur rwin inc hL hR hroll
  obtain ⟨hlen, hP⟩ := sim_spec_of_ok sq df L R sf ii ur rwin inc rows hsafe
    hrun
  constructor
  · intro t row hget hmod
    obtain ⟨-, -, -, -, h5, -⟩ := hP t row hget
    refine h5 ?_
    rw [mkCtx_review_period]
    exact hmod
  · intro t ht
    obtain ⟨s, hs, hinv⟩ :=
      loop_ok _ hsafe t 0 _ (initState_loopInv (mkCtx sq df L R sf ii ur
        rwin inc))
    refine ⟨s, hs, ?_⟩
    obtain ⟨-, hq, -⟩ := hinv
    rw [hq, List.length_map, List.length_range, mkCtx_lead_time]

theorem claim_C5_witness :
    forecast_periodic_review_inventory id dfB 1 3 0 0 false none true =
      .ok rowsB ∧
    ((1 : ℤ).fmod 3 ≠ 0 →
      (⟨0, 40, 0, false, false, 30, some 0, false⟩ : OutRow).order_quantity =
        0) ∧
    (∃ s, loop (mkCtx id dfB 1 3 0 0 false none true) (List.range' 0 2)
        (initState (mkCtx id dfB 1 3 0 0 false none true)) = .ok s ∧
      s.in_transit.length = (1 : ℤ).toNat) := by
  have h := claim_C5 id dfB 1 3 0 0 false none true rowsB (by norm_num)
    (by norm_num) (by simp) runB
  exact ⟨runB, h.1 1 ⟨0, 40, 0, false, false, 30, some 0, false⟩ rfl,
    h.2 2 (by norm_num [dfB])⟩

/-- Claim C6: projection partition.  For every period of a successful run:
`is_projection = 1` iff `t > last_actual_period`; and — under the spec's
data-model assumptions that the present demand values form a contiguous
prefix (every `t ≤ last_actual_period` has a demand) and that every period
has a forecast — `error` is defined iff `t ≤ last_actual_period`
(`last_actual_period` being the index of the last record with present
demand, `-1` when there is none, in which case every period is a
projection and no `error` is defined). -/
theorem claim_C6 (sq : ℚ → ℚ) (df : List Row) (L R : ℤ) (sf ii : ℚ)
    (ur : Bool) (rwin : Option ℤ) (inc : Bool) (rows : List OutRow)
    (hL : 1 ≤ L) (hR : R ≠ 0) (hroll : ur = true → rwin.getD (2 * R) ≠ 0)
    (hrun : forecast_periodic_review_inventory sq df L R sf ii ur rwin inc =
      .ok rows)
    (hcontig : ∀ u : ℕ, (u : ℤ) ≤ lastValidIndex (df.map Row.demand) →
      (optAt (df.map Row.demand) u).isSome = true)
    (hfore : ∀ u : ℕ, u < df.length →
      (optAt (df.map Row.forecast) u).isSome = true) :
    ∀ t row, rows.get? t = some row →
      (row.is_projection = true ↔
        lastValidIndex (df.map Row.demand) < (t : ℤ)) ∧
      (row.error.isSome = true ↔
        (t : ℤ) ≤ lastValidIndex (df.map Row.demand)) := by
  obtain ⟨hlen, hP⟩ := sim_spec_of_ok sq df L R sf ii ur rwin inc rows
    (safeC_mk sq df L R sf ii ur rwin inc hL hR hroll) hrun
  intro t row hget
  have ht : t < df.length := by
    obtain ⟨hlt, -⟩ := List.get?_eq_some.mp hget
    omega
  obtain ⟨h1, h2, -⟩ := hP t row hget
  constructor
  · rw [h2]
    simp [mkCtx_lap]
  · rw [h1, mkCtx_errorCol,
      optAt_errColOf _ _ _ t (by rw [List.length_map]; exact ht)]
    by_cases hle : (t : ℤ) ≤ lastValidIndex (df.map Row.demand)
    · rw [if_pos hle]
      obtain ⟨d, hd⟩ := Option.isSome_iff_exists.mp (hcontig t hle)
      obtain ⟨f, hf⟩ := Option.isSome_iff_exists.mp (hfore t ht)
      rw [hd, hf]
      simp [hle]
    · rw [if_neg hle]
      simp [hle]

theorem claim_C6_witness :
    forecast_periodic_review_inventory id dfA 1 1 0 10 false none true =
      .ok rowsA ∧
    ((⟨0, 6, 0, false, false, 0, none, true⟩ : OutRow).is_projection =
        true ↔
      lastValidIndex (dfA.map Row.demand) < ((2 : ℕ) : ℤ)) ∧
    ((⟨0, 6, 0, false, false, 0, none, true⟩ : OutRow).error.isSome =
        true ↔
      ((2 : ℕ) : ℤ) ≤ lastValidIndex (dfA.map Row.demand)) := by
  refine ⟨runA, claim_C6 id dfA 1 1 0 10 false none true rowsA (by norm_num)
    (by norm_num) (by simp) runA ?_ ?_ 2
    ⟨0, 6, 0, false, false, 0, none, true⟩ rfl⟩
  · intro u hu
    have h1 : lastValidIndex (dfA.map Row.demand) = 1 := rfl
    rw [h1] at hu
    have h2 : u ≤ 1 := by exact_mod_cast hu
    interval_cases u <;> rfl
  · intro u hu
    have h2 : u ≤ 2 := by
      have h3 : dfA.length = 3 := rfl
      omega
    interval_cases u <;> rfl

/-- Input fixture: four periods of actual demand, constant forecast, used
with the rolling safety-stock option enabled. -/
def dfC : List Row :=
  [⟨some 5, some 5⟩, ⟨some 4, some 5⟩, ⟨some 6, some 5⟩, ⟨some 5, some 5⟩]

/-- Output of the simulator on `dfC` with `lead_time = 1`,
`review_period = 1`, `safety_factor = 0`, `initial_inventory = 20`,
`use_rolling_ss = true` (rolling window defaults to 2). -/
def rowsC : List OutRow :=
  [⟨0, 20, 0, false, false, 15, some 0, false⟩,
    ⟨0, 15, 0, false, false, 11, some 1, false⟩,
    ⟨0, 11, 0, false, false, 5, some (-1), false⟩,
    ⟨0, 5, 0, false, false, 0, some 0, false⟩]

theorem runC : forecast_periodic_review_inventory id dfC 1 1 0 20 true none
    true = .ok rowsC := by with_unfolding_all rfl

/-- Claim C7: rolling safety-stock update.  With `use_rolling_ss` enabled
(and a positive rolling window, the default `2 × review_period` being such),
at every period of a successful run: when the trigger
`t ≥ rolling_window ∧ t mod rolling_window = 0 ∧ t ≤ last_actual_period`
holds, the window of examined errors is exactly the defined errors at
indices `[t − rolling_window, t)`, and if that window is non-empty the
recorded target for `t` (and, by the recurrence, every subsequent period
until the next effective trigger) is
`safety_factor * population_std(window) * time_factor`; when the trigger
fails or the window holds no defined error, the previous target is kept
unchanged and the run continues normally. -/
theorem claim_C7 (sq : ℚ → ℚ) (df : List Row) (L R : ℤ) (sf ii : ℚ)
    (rwin : Option ℤ) (inc : Bool) (rows : List OutRow)
    (hL : 1 ≤ L) (hR : R ≠ 0) (hrw : 1 ≤ rwin.getD (2 * R))
    (hrun : forecast_periodic_review_inventory sq df L R sf ii true rwin
      inc = .ok rows) :
    ∀ t row, rows.get? t = some row →
      ((rwin.getD (2 * R) ≤ (t : ℤ) ∧
          (t : ℤ).fmod (rwin.getD (2 * R)) = 0 ∧
          (t : ℤ) ≤ lastValidIndex (df.map Row.demand)) →
        (windowErrors (mkCtx sq df L R sf ii true rwin inc) t ≠ [] →
          row.safety_stock_target =
            sf * popStd sq
                (windowErrors (mkCtx sq df L R sf ii true rwin inc) t) *
              (mkCtx sq df L R sf ii true rwin inc).time_factor) ∧
        windowErrors (mkCtx sq df L R sf ii true rwin inc) t =
          ((List.range (rwin.getD (2 * R)).toNat).map fun i =>
            optAt (mkCtx sq df L R sf ii true rwin inc).errorCol
              (t - (rwin.getD (2 * R)).toNat + i)).filterMap id) ∧
      ((¬(rwin.getD (2 * R) ≤ (t : ℤ) ∧
          (t : ℤ).fmod (rwin.getD (2 * R)) = 0 ∧
          (t : ℤ) ≤ lastValidIndex (df.map Row.demand)) ∨
        windowErrors (mkCtx sq df L R sf ii true rwin inc) t = []) →
        row.safety_stock_target =
          prevSS (mkCtx sq df L R sf ii true rwin inc) rows t) := by
  obtain ⟨hlen, hP⟩ := sim_spec_of_ok sq df L R sf ii true rwin inc rows
    (safeC_mk sq df L R sf ii true rwin inc hL hR (fun _ => by omega)) hrun
  intro t row hget
  have ht : t < df.length := by
    obtain ⟨hlt, -⟩ := List.get?_eq_some.mp hget
    omega
  obtain ⟨-, -, h3, -⟩ := hP t row hget
  have herrlen :
      (mkCtx sq df L R sf ii true rwin inc).errorCol.length = df.length := by
    rw [mkCtx_errorCol, errColOf, List.length_map, List.length_range,
      List.length_map]
  constructor
  · rintro ⟨ht1, ht2, ht3⟩
    have hcond : (mkCtx sq df L R sf ii true rwin inc).use_rolling_ss =
        true ∧
        (mkCtx sq df L R sf ii true rwin inc).rw ≤ (t : ℤ) ∧
        (t : ℤ).fmod (mkCtx sq df L R sf ii true rwin inc).rw = 0 ∧
        (t : ℤ) ≤ (mkCtx sq df L R sf ii true rwin inc).lap :=
      ⟨rfl, ht1, ht2, ht3⟩
    constructor
    · intro hne
      rw [h3]
      simp only [rolUpdate]
      rw [if_pos hcond, if_pos (List.length_pos.mpr hne)]
      rfl
    · have hmax :
          (max 0 ((t : ℤ) - (mkCtx sq df L R sf ii true rwin inc).rw)).toNat
            = t - (rwin.getD (2 * R)).toNat := by
        rw [mkCtx_rw]
        have h1 : max 0 ((t : ℤ) - rwin.getD (2 * R)) =
            (t : ℤ) - rwin.getD (2 * R) := max_eq_right (by omega)
        rw [h1]
        omega
      rw [windowErrors, hmax,
        ilocSlice_eq_map _ _ _ (by omega) (by omega) (by omega)]
      have hsz : (t : ℤ).toNat - (t - (rwin.getD (2 * R)).toNat) =
          (rwin.getD (2 * R)).toNat := by omega
      rw [hsz]
  · intro hcase
    by_cases hcond : (mkCtx sq df L R sf ii true rwin inc).use_rolling_ss =
        true ∧
        (mkCtx sq df L R sf ii true rwin inc).rw ≤ (t : ℤ) ∧
        (t : ℤ).fmod (mkCtx sq df L R sf ii true rwin inc).rw = 0 ∧
        (t : ℤ) ≤ (mkCtx sq df L R sf ii true rwin inc).lap
    · rcases hcase with hnt | hW
      · exact absurd ⟨hcond.2.1, hcond.2.2.1, hcond.2.2.2⟩ hnt
      · rw [h3]
        simp only [rolUpdate]
        rw [if_pos hcond, hW]
        simp
    · rw [h3]
      simp only [rolUpdate]
      rw [if_neg hcond]

theorem claim_C7_witness :
    forecast_periodic_review_inventory id dfC 1 1 0 20 true none true =
      .ok rowsC ∧
    ((windowErrors (mkCtx id dfC 1 1 0 20 true none true) 2 ≠ [] →
      (⟨0, 11, 0, false, false, 5, some (-1), false⟩ :
          OutRow).safety_stock_target =
        0 * popStd id (windowErrors (mkCtx id dfC 1 1 0 20 true none true) 2)
          * (mkCtx id dfC 1 1 0 20 true none true).time_factor) ∧
      windowErrors (mkCtx id dfC 1 1 0 20 true none true) 2 =
        ((List.range ((none : Option ℤ).getD (2 * 1)).toNat).map fun i =>
          optAt (mkCtx id dfC 1 1 0 20 true none true).errorCol
            (2 - ((none : Option ℤ).getD (2 * 1)).toNat + i)).filterMap id) ∧
    (⟨0, 15, 0, false, false, 11, some 1, false⟩ :
        OutRow).safety_stock_target =
      prevSS (mkCtx id dfC 1 1 0 20 true none true) rowsC 1 := by
  have h := claim_C7 id dfC 1 1 0 20 none true rowsC (by norm_num)
    (by norm_num) (by norm_num) runC
  refine ⟨runC, ?_, ?_⟩
  · exact (h 2 ⟨0, 11, 0, false, false, 5, some (-1), false⟩ rfl).1
      ⟨by decide, by decide, by decide⟩
  · exact (h 1 ⟨0, 15, 0, false, false, 11, some 1, false⟩ rfl).2
      (Or.inl (by decide))

theorem filterMap_id_length (l : List (Option ℚ))
    (h : ∀ x ∈ l, x.isSome = true) : (l.filterMap id).length = l.length := by
  induction l with
  | nil => rfl
  | cons x xs ih =>
    rcases x with _ | v
    · exact absurd (h none (by simp)) (by simp)
    · have hc : List.filterMap id (some v :: xs) = v :: xs.filterMap id :=
        rfl
      rw [hc, List.length_cons, ih fun y hy => h y (by simp [hy])]
      rfl

theorem optAt_errColOf_neg (demands forecasts : List (Option ℚ)) (t : ℕ) :
    optAt (errColOf demands forecasts (-1)) t = none := by
  by_cases ht : t < demands.length
  · rw [optAt_errColOf _ _ _ t ht, if_neg (by omega)]
  · unfold optAt errColOf
    rw [List.get?_eq_getElem?, List.getElem?_eq_none
      (by rw [List.length_map, List.length_range]; omega)]
    rfl

/-- Input fixture: no period has actual demand (cold start). -/
def dfD : List Row := [⟨none, some 10⟩, ⟨none, some 20⟩]

/-- Output of the simulator on `dfD` with `lead_time = 1`,
`review_period = 1`, `safety_factor = 1`, `initial_inventory = 0`. -/
def rowsD : List OutRow :=
  [⟨36, 0, 6, true, true, 0, none, true⟩,
    ⟨0, 36, 6, false, false, 16, none, true⟩]

theorem runD : forecast_periodic_review_inventory id dfD 1 1 1 0 false none
    true = .ok rowsD := by with_unfolding_all rfl

/-- Claim C8: no-history fallback.  When every demand is missing (and, per
the data model, every forecast is present in a non-empty series),
`std_error` is `0.2 × mean(forecast)` if that mean is positive and `0`
otherwise, the baseline safety stock is
`safety_factor × std_error × time_factor`, and no period of the output has a
defined `error`. -/
theorem claim_C8 (sq : ℚ → ℚ) (df : List Row) (L R : ℤ) (sf ii : ℚ)
    (ur : Bool) (rwin : Option ℤ) (inc : Bool) (rows : List OutRow)
    (hL : 1 ≤ L) (hR : R ≠ 0) (hroll : ur = true → rwin.getD (2 * R) ≠ 0)
    (hrun : forecast_periodic_review_inventory sq df L R sf ii ur rwin inc =
      .ok rows)
    (hall : ∀ r ∈ df, r.demand = none)
    (hfore : ∀ r ∈ df, r.forecast.isSome = true) (hn : df ≠ []) :
    std_error_all sq (mkCtx sq df L R sf ii ur rwin inc).errorCol
        (df.map Row.forecast) =
      (if 0 < (df.filterMap Row.forecast).sum / (df.length : ℚ) then
        0.2 * ((df.filterMap Row.forecast).sum / (df.length : ℚ))
      else 0) ∧
    (mkCtx sq df L R sf ii ur rwin inc).base =
      sf * std_error_all sq (mkCtx sq df L R sf ii ur rwin inc).errorCol
          (df.map Row.forecast) *
        (mkCtx sq df L R sf ii ur rwin inc).time_factor ∧
    ∀ t row, rows.get? t = some row → row.error = none := by
  obtain ⟨hlen, hP⟩ := sim_spec_of_ok sq df L R sf ii ur rwin inc rows
    (safeC_mk sq df L R sf ii ur rwin inc hL hR hroll) hrun
  have hlap : lastValidIndex (df.map Row.demand) = -1 := by
    refine lastValidIndex_of_all_none _ ?_
    intro x hx
    rw [List.mem_map] at hx
    obtain ⟨r, hr, rfl⟩ := hx
    exact hall r hr
  have herr : (mkCtx sq df L R sf ii ur rwin inc).errorCol =
      errColOf (df.map Row.demand) (df.map Row.forecast) (-1) := by
    rw [mkCtx_errorCol, hlap]
  have hpres : (df.map Row.forecast).filterMap id =
      df.filterMap Row.forecast := by
    rw [List.filterMap_map]
    rfl
  have hlen2 : (df.filterMap Row.forecast).length = df.length := by
    rw [← hpres, ← List.length_map df Row.forecast]
    refine filterMap_id_length _ ?_
    intro x hx
    rw [List.mem_map] at hx
    obtain ⟨r, hr, rfl⟩ := hx
    exact hfore r hr
  have hmean : meanPresent (df.map Row.forecast) =
      some ((df.filterMap Row.forecast).sum / (df.length : ℚ)) := by
    simp only [meanPresent, hpres, hlen2]
    rw [if_neg (by rw [List.length_eq_zero]; exact hn)]
  refine ⟨?_, mkCtx_base sq df L R sf ii ur rwin inc, ?_⟩
  · rw [herr]
    simp only [std_error_all, errColOf_filterMap_nil, List.length_nil,
      hmean]
    rw [if_neg (by norm_num)]
  · intro t row hget
    obtain ⟨h1, -⟩ := hP t row hget
    rw [h1, herr, optAt_errColOf_neg]

theorem claim_C8_witness :
    forecast_periodic_review_inventory id dfD 1 1 1 0 false none true =
      .ok rowsD ∧
    std_error_all id (mkCtx id dfD 1 1 1 0 false none true).errorCol
        (dfD.map Row.forecast) =
      (if 0 < (dfD.filterMap Row.forecast).sum / (dfD.length : ℚ) then
        0.2 * ((dfD.filterMap Row.forecast).sum / (dfD.length : ℚ))
      else 0) ∧
    (⟨36, 0, 6, true, true, 0, none, true⟩ : OutRow).error = none := by
  have h := claim_C8 id dfD 1 1 1 0 false none true rowsD (by norm_num)
    (by norm_num) (by simp) runD (by decide) (by decide) (by decide)
  exact ⟨runD, h.1, h.2.2 0 ⟨36, 0, 6, true, true, 0, none, true⟩ rfl⟩

/-- Claim C9: horizon-end boundary safety.  At every review period `t` of a
valid configuration, `future_periods = min(lead_time + review_period,
n − t)`, the slice of forecasts summed covers exactly the periods
`t, …, t + future_periods − 1`, and `t + future_periods ≤ n`, so no
forecast past the end of the series is ever read, including at the final
review period. -/
theorem claim_C9 (sq : ℚ → ℚ) (df : List Row) (L R : ℤ) (sf ii : ℚ)
    (ur : Bool) (rwin : Option ℤ) (inc : Bool) (t : ℕ)
    (hL : 0 ≤ L) (hR : 1 ≤ R) (ht : t < df.length)
    (hrev : (t : ℤ).fmod R = 0) :
    future_periods (mkCtx sq df L R sf ii ur rwin inc) t =
      min (L + R) ((df.length : ℤ) - (t : ℤ)) ∧
    (t : ℤ) + future_periods (mkCtx sq df L R sf ii ur rwin inc) t ≤
      (df.length : ℤ) ∧
    futureForecastSlice (mkCtx sq df L R sf ii ur rwin inc) t =
      (List.range
          (future_periods (mkCtx sq df L R sf ii ur rwin inc) t).toNat).map
        fun i => optAt (df.map Row.forecast) (t + i) := by
  have h1 : future_periods (mkCtx sq df L R sf ii ur rwin inc) t =
      min (L + R) ((df.length : ℤ) - (t : ℤ)) := rfl
  have hfp1 : 1 ≤ future_periods (mkCtx sq df L R sf ii ur rwin inc) t := by
    rw [h1]
    omega
  have hfpn : future_periods (mkCtx sq df L R sf ii ur rwin inc) t ≤
      (df.length : ℤ) - (t : ℤ) := by
    rw [h1]
    omega
  have hflen : (mkCtx sq df L R sf ii ur rwin inc).forecasts.length =
      df.length := by
    rw [mkCtx_forecasts, List.length_map]
  refine ⟨h1, by omega, ?_⟩
  rw [futureForecastSlice,
    ilocSlice_eq_map _ _ _ (by omega) (by omega) (by omega)]
  have hsz : ((t : ℤ) +
      future_periods (mkCtx sq df L R sf ii ur rwin inc) t).toNat - t =
      (future_periods (mkCtx sq df L R sf ii ur rwin inc) t).toNat := by
    omega
  rw [hsz, mkCtx_forecasts]

theorem claim_C9_witness :
    ((0 : ℤ) ≤ 1 ∧ (1 : ℤ) ≤ 3 ∧ 3 < dfB.length ∧ ((3 : ℕ) : ℤ).fmod 3 = 0) ∧
    (future_periods (mkCtx id dfB 1 3 0 0 false none true) 3 =
      min (1 + 3) ((dfB.length : ℤ) - ((3 : ℕ) : ℤ)) ∧
    ((3 : ℕ) : ℤ) + future_periods (mkCtx id dfB 1 3 0 0 false none true) 3 ≤
      (dfB.length : ℤ) ∧
    futureForecastSlice (mkCtx id dfB 1 3 0 0 false none true) 3 =
      (List.range
          (future_periods (mkCtx id dfB 1 3 0 0 false none true) 3).toNat).map
        fun i => optAt (dfB.map Row.forecast) (3 + i)) :=
  ⟨⟨by norm_num, by norm_num, by norm_num [dfB], by decide⟩,
    claim_C9 id dfB 1 3 0 0 false none true 3 (by norm_num) (by norm_num)
      (by norm_num [dfB]) (by decide)⟩

/-- Input fixture: a gap in the actual demand — period 1 has no demand while
period 2 still does. -/
def dfE : List Row :=
  [⟨some 5, some 5⟩, ⟨none, some 5⟩, ⟨some 4, some 5⟩]

/-- Output of the simulator on `dfE` with `lead_time = 1`,
`review_period = 1`, `safety_factor = 0`, `initial_inventory = 20`. -/
def rowsE : List OutRow :=
  [⟨0, 20, 0, false, false, 15, some 0, false⟩,
    ⟨0, 15, 0, false, true, 0, none, false⟩,
    ⟨5, 0, 0, false, true, 0, some 1, false⟩]

theorem runE : forecast_periodic_review_inventory id dfE 1 1 0 20 false none
    true = .ok rowsE := by with_unfolding_all rfl

/-- Claim C10: violated contiguity does not fail.  If some period
`t ≤ last_actual_period` has a missing demand (a gap before a later actual
demand), the simulator does not fail at `t`: the missing (`NaN`) demand
compares false against on-hand inventory, so the period takes the stockout
branch — `stockout = 1` and `ending_inventory = 0` — regardless of how much
inventory is on hand. -/
theorem claim_C10 (sq : ℚ → ℚ) (df : List Row) (L R : ℤ) (sf ii : ℚ)
    (ur : Bool) (rwin : Option ℤ) (inc : Bool) (rows : List OutRow)
    (hL : 1 ≤ L) (hR : R ≠ 0) (hroll : ur = true → rwin.getD (2 * R) ≠ 0)
    (hrun : forecast_periodic_review_inventory sq df L R sf ii ur rwin inc =
      .ok rows) (t : ℕ) (row : OutRow) (hget : rows.get? t = some row)
    (hlap : (t : ℤ) ≤ lastValidIndex (df.map Row.demand))
    (hmiss : optAt (df.map Row.demand) t = none) :
    row.stockout = true ∧ row.ending_inventory = 0 := by
  obtain ⟨hlen, hP⟩ := sim_spec_of_ok sq df L R sf ii ur rwin inc rows
    (safeC_mk sq df L R sf ii ur rwin inc hL hR hroll) hrun
  obtain ⟨-, -, -, -, -, -, -, h8, -, h10⟩ := hP t row hget
  have hreal : realized (mkCtx sq df L R sf ii ur rwin inc) t = none := by
    rw [realized, mkCtx_lap, if_pos hlap, mkCtx_demands]
    exact hmiss
  rw [hreal] at h10
  simp only [Option.elim_none] at h10
  exact ⟨h10, h8 h10⟩

theorem claim_C10_witness :
    forecast_periodic_review_inventory id dfE 1 1 0 20 false none true =
      .ok rowsE ∧
    (⟨0, 15, 0, false, true, 0, none, false⟩ : OutRow).stockout = true ∧
    (⟨0, 15, 0, false, true, 0, none, false⟩ :
      OutRow).ending_inventory = 0 :=
  ⟨runE, claim_C10 id dfE 1 1 0 20 false none true rowsE (by norm_num)
    (by norm_num) (by simp) runE 1 ⟨0, 15, 0, false, true, 0, none, false⟩
    rfl (by decide) (by decide)⟩
